import Mathlib

/-!
Shallow embedding of the jakarta_analyze pipeline execution engine:
the worker runtime loop from modules/pipeline/pipeline_worker.py
(PipelineWorker._run) and the controller from modules/pipeline/pipeline.py
(Pipeline._load_config, Pipeline.setup, Pipeline.start, Pipeline.stop,
Pipeline.run).
-/

/-- A message travelling on a pipeline queue: either a work item or the
STOP sentinel (the literal string STOP in the code). -/
inductive Msg (α : Type) : Type
  | item : α → Msg α
  | stop : Msg α
deriving DecidableEq

/-- Observable events of the non-source branch of PipelineWorker._run:
for each dequeued item, whether self.run(item) returned normally or raised
(the raise is caught, logged and the loop continues), and each forwarding
of the STOP sentinel to an output queue (by queue index). -/
inductive Ev (α : Type) : Type
  | ranOk : α → Ev α
  | ranErr : α → Ev α
  | putStop : Nat → Ev α
deriving DecidableEq

/-- The non-source message loop of PipelineWorker._run
(pipeline_worker.py lines 124..142), run over the finite prefix of the
input queue observed so far; the front of the list is dequeued first.
Returns the event trace together with a flag telling whether the loop
exited via break, i.e. it dequeued the STOP sentinel and forwarded it to
each of the nOut output queues.  When the observed input is exhausted
without a STOP the loop is still blocked in input_queue.get(), so the flag
is false and the first component is the partial trace so far.  runRaises
tells, for each item, whether self.run raised on it; either way the loop
moves on to the next message. -/
def nsLoopTrace {α : Type} (runRaises : α → Bool) (nOut : Nat) :
    List (Msg α) → List (Ev α) × Bool
  | [] => ([], false)
  | Msg.stop :: _ => ((List.range nOut).map Ev.putStop, true)
  | Msg.item a :: rest =>
    ((if runRaises a then Ev.ranErr a else Ev.ranOk a)
        :: (nsLoopTrace runRaises nOut rest).1,
      (nsLoopTrace runRaises nOut rest).2)

/-- The items passed to self.run, in order, read off an event trace. -/
def runItems {α : Type} : List (Ev α) → List α
  | [] => []
  | Ev.ranOk a :: t => a :: runItems t
  | Ev.ranErr a :: t => a :: runItems t
  | Ev.putStop _ :: t => runItems t

/-- Events of a whole _run invocation: startup() succeeded or raised
(the raise is swallowed by the outer except after skipping the loop),
a loop event, or an invocation of shutdown() by the finally block. -/
inductive REv (α : Type) : Type
  | startupOk : REv α
  | startupRaised : REv α
  | loopEv : Ev α → REv α
  | shutdownCall : REv α
deriving DecidableEq

/-- PipelineWorker._run (pipeline_worker.py lines 103..150) for a worker
with an input queue (the non-source branch).  The body is
try / except Exception / finally: when startup() raises, the loop is
skipped and the outer except logs; the finally block invokes shutdown()
whenever _run returns.  The second component tells whether _run returned
(false means the loop is still blocked reading its input queue, in which
case shutdown() has not been invoked yet). -/
def runNSTrace {α : Type} (startupRaises : Bool) (runRaises : α → Bool)
    (nOut : Nat) (inQ : List (Msg α)) : List (REv α) × Bool :=
  if startupRaises then ([REv.startupRaised, REv.shutdownCall], true)
  else if (nsLoopTrace runRaises nOut inQ).2 then
    (REv.startupOk
        :: ((nsLoopTrace runRaises nOut inQ).1.map REv.loopEv
          ++ [REv.shutdownCall]),
      true)
  else (REv.startupOk :: (nsLoopTrace runRaises nOut inQ).1.map REv.loopEv, false)

/-- Number of shutdown() invocations recorded in a _run trace. -/
def countShutdown {α : Type} : List (REv α) → Nat
  | [] => 0
  | REv.shutdownCall :: t => countShutdown t + 1
  | REv.startupOk :: t => countShutdown t
  | REv.startupRaised :: t => countShutdown t
  | REv.loopEv _ :: t => countShutdown t

/-- One observation of the source-worker branch of PipelineWorker._run:
iteration k calls self.run(None); it either returned normally or raised
(the raise is caught, logged, followed by a 1 s backoff sleep). -/
inductive SEv : Type
  | ran : Nat → SEv
  | raised : Nat → SEv
deriving DecidableEq

/-- The body of one iteration of the source branch. -/
def sourceIter (runRaises : Nat → Bool) (k : Nat) : SEv :=
  if runRaises k then SEv.raised k else SEv.ran k

/-- The source branch of PipelineWorker._run (pipeline_worker.py lines
115..123): while True with no break, so the loop never terminates on its
own; this is its event trace after observing the first fuel iterations.
No iteration inspects the outcome of the previous one: a normal return of
self.run(None) is followed by another call just like a caught exception
is. -/
def sourceLoopTrace (runRaises : Nat → Bool) (fuel : Nat) : List SEv :=
  (List.range fuel).map (sourceIter runRaises)

/-- A worker descriptor as the engine reads it: a Python dict in which any
of the keys consulted by Pipeline may be absent (modelled none).  The
stage-specific params are not consulted by the control logic and are
omitted. -/
structure WDesc where
  name : Option String := none
  type : Option String := none
  source : Option Bool := none
  next : Option (List String) := none
  queue_size : Option Nat := none
deriving DecidableEq

/-- A legacy pipeline task record (the config shape carrying
pipeline.tasks, pipeline.py lines 91..124).  prev_task is none when the
key is absent and some s when present; Python treats the empty string as
falsy. -/
structure PipeTask where
  name : String
  worker_type : Option String := none
  prev_task : Option String := none
deriving DecidableEq

/-- First adapter pass (pipeline.py lines 94..113): copy the task, rename
worker_type to type, pop prev_task and derive the source flag from its
truthiness.  When the prev_task key is absent the branch is skipped and no
source key is written at all. -/
def mkDesc (t : PipeTask) : WDesc :=
  { name := some t.name
    type := t.worker_type
    source := t.prev_task.map (fun p => decide (p = ""))
    next := none
    queue_size := none }

/-- Inner loop of the second adapter pass (pipeline.py lines 120..124):
append childName to the next list of every descriptor whose name equals
prevName, creating the list when the key is absent. -/
def appendNext (ws : List WDesc) (prevName childName : String) : List WDesc :=
  ws.map (fun w =>
    if w.name = some prevName then
      { w with next := some (w.next.getD [] ++ [childName]) }
    else w)

/-- Second adapter pass (pipeline.py lines 116..124), iterating over the
descriptor list by position while reading prev_task back out of the
original task list at the same index.  A descriptor whose source key is
absent or false looks up tasks[i][prev_task]; when that key (or index) is
absent Python raises KeyError, which the surrounding except turns into the
empty config — modelled as none.  Adapter-produced descriptors always
carry a name key, read here with getD. -/
def wireGo (tasks : List PipeTask) : Nat → Nat → List WDesc → Option (List WDesc)
  | 0, _, ws => some ws
  | k + 1, i, ws =>
    match ws.get? i with
    | none => some ws
    | some w =>
      if w.source.getD false then wireGo tasks k (i + 1) ws
      else
        match (tasks.get? i).bind PipeTask.prev_task with
        | none => none
        | some p => wireGo tasks k (i + 1) (appendNext ws p (w.name.getD ""))

/-- The whole legacy-shape adapter of Pipeline._load_config: build one
descriptor per task, then wire the next lists; none models the KeyError
path (caught at pipeline.py line 135, yielding the empty config). -/
def adaptTasks (tasks : List PipeTask) : Option (List WDesc) :=
  wireGo tasks tasks.length 0 (tasks.map mkDesc)

/-- The possible outcomes of reading the configuration file in
Pipeline._load_config: file missing (line 73), unsupported extension
(line 86), parser exception (caught at line 135), a legacy-shape document
(pipeline.tasks), or a canonical-shape document whose workers list is
taken as is. -/
inductive LoadOutcome : Type
  | missingFile : LoadOutcome
  | unsupportedExt : LoadOutcome
  | parseError : LoadOutcome
  | legacy : List PipeTask → LoadOutcome
  | canonical : List WDesc → LoadOutcome
deriving DecidableEq

/-- Pipeline._load_config (pipeline.py lines 54..137) reduced to the
workers list that the rest of the engine reads through
self.config.get(workers, []): every failure path returns the empty dict,
whose workers list is empty. -/
def loadWorkers : LoadOutcome → List WDesc
  | LoadOutcome.missingFile => []
  | LoadOutcome.unsupportedExt => []
  | LoadOutcome.parseError => []
  | LoadOutcome.legacy ts =>
    match adaptTasks ts with
    | none => []
    | some ws => ws
  | LoadOutcome.canonical ws => ws

/-- The keys of the built-in worker registry (pipeline.py lines 149..160);
WriteKeysToDatabaseTable is commented out in the source. -/
def worker_registry : List String :=
  ["ReadFramesFromVidFilesInDir", "Yolo3Detect", "LKSparseOpticalFlow",
   "MeanMotionDirection", "WriteFramesToVidFiles", "ComputeFrameStats",
   "WriteKeysToFiles", "ReadFramesFromVid", "ReadFramesFromVidFile"]

/-- worker_config.get(name, f"worker_{i}") for the descriptor at
position i. -/
def wname (i : Nat) (c : WDesc) : String :=
  c.name.getD ("worker_" ++ toString i)

/-- worker_config.get(source, False). -/
def isSource (c : WDesc) : Bool :=
  c.source.getD false

/-- A queue key in self.queues: q_in_name or q_out_name.  The two string
spellings in the code can never collide, which the two constructors make
structural. -/
inductive QName : Type
  | qin : String → QName
  | qout : String → QName
deriving DecidableEq

/-- Python dict assignment on the key list: a fresh key is appended, an
existing key keeps its position. -/
def dictInsert (k : QName) (m : List QName) : List QName :=
  if k ∈ m then m else m ++ [k]

/-- Setup pass 1 (pipeline.py lines 165..183) over the enumerated
descriptor list: allocate an input queue for every non-source worker and,
unconditionally, an output queue for every worker (the q_out queues are
allocated but never wired to anything afterwards). -/
def pass1go : List (Nat × WDesc) → List QName → List QName
  | [], qs => qs
  | (i, c) :: rest, qs =>
    let nm := wname i c
    let qs1 := if isSource c then qs else dictInsert (QName.qin nm) qs
    pass1go rest (dictInsert (QName.qout nm) qs1)

/-- Both setup passes run over enumerate(workers_config). -/
def pass1 (cfgs : List WDesc) : List QName :=
  pass1go cfgs.enum []

/-- Whether resolution of a worker type name succeeds (pipeline.py lines
196..217): a registry hit followed by a module import that may itself
fail, otherwise a dynamic import attempted only when the name contains a
dot.  importOk abstracts whether the import machinery succeeds for a given
name. -/
def resolveOk (importOk : String → Bool) (ty : String) : Bool :=
  if ty ∈ worker_registry then importOk ty
  else if ty.data.contains '.' then importOk ty
  else false

/-- Whether a descriptor resolves to a constructible worker class. -/
def descResolves (importOk : String → Bool) (c : WDesc) : Bool :=
  match c.type with
  | none => false
  | some ty => resolveOk importOk ty

/-- The logger.error calls emitted by setup pass 2 on its skip paths. -/
inductive SetupLog : Type
  | noType : String → SetupLog
  | registryImportError : String → SetupLog
  | unknownType : String → SetupLog
  | importError : String → SetupLog
deriving DecidableEq

/-- Python dict assignment for self.workers, recording for each worker
name whether its descriptor was a source (input_queue None). -/
def dictInsertW (nm : String) (v : Bool) (ws : List (String × Bool)) :
    List (String × Bool) :=
  if nm ∈ ws.map Prod.fst then ws.map (fun p => if p.1 = nm then (nm, v) else p)
  else ws ++ [(nm, v)]

/-- Result of setup pass 2: the registered workers, the logged errors, and
the value setup returns. -/
structure Pass2Out where
  workers : List (String × Bool)
  logs : List SetupLog
  ok : Bool
deriving DecidableEq

/-- Decision taken by setup pass 2 for one enumerated descriptor: either
skip it with a logged error, or construct the worker and register it
under its name. -/
inductive P2Act : Type
  | skip : SetupLog → P2Act
  | construct : String → Bool → P2Act
deriving DecidableEq

/-- The branch structure of the body of setup pass 2 (pipeline.py lines
186..217): read the type key and test it by Python truthiness — an
absent key (None) and a present-but-empty string both take the
"type not specified" path naming the worker, logging and continuing
without ever reaching the registry or dotted-import logic; otherwise look
the name up in the registry (an importlib failure there: log and
continue), else attempt a dynamic import only when the type name contains
a dot (failure or undotted name: log and continue); on success the worker
is constructed with input_queue None exactly for source descriptors. -/
def pass2act (importOk : String → Bool) (i : Nat) (c : WDesc) : P2Act :=
  match c.type with
  | none => P2Act.skip (SetupLog.noType (wname i c))
  | some ty =>
    if ty = "" then P2Act.skip (SetupLog.noType (wname i c))
    else if ty ∈ worker_registry then
      if importOk ty then P2Act.construct (wname i c) (isSource c)
      else P2Act.skip (SetupLog.registryImportError ty)
    else if ty.data.contains '.' then
      if importOk ty then P2Act.construct (wname i c) (isSource c)
      else P2Act.skip (SetupLog.importError ty)
    else P2Act.skip (SetupLog.unknownType ty)

/-- Setup pass 2 (pipeline.py lines 186..291): resolve and construct each
descriptor in turn.  initRaises models an exception escaping the worker
constructor (PipelineWorker.__init__ re-raises initialize() failures),
which flies to the outer except of setup: setup then returns False with
the workers registered so far left in place.  Output-queue gathering only
logs warnings and adds no observable state here. -/
def pass2go (importOk : String → Bool) (initRaises : String → Bool) :
    List (Nat × WDesc) → List (String × Bool) → List SetupLog → Pass2Out
  | [], ws, ls => ⟨ws, ls, true⟩
  | (i, c) :: rest, ws, ls =>
    match pass2act importOk i c with
    | P2Act.skip lg => pass2go importOk initRaises rest ws (ls ++ [lg])
    | P2Act.construct nm src =>
      if initRaises nm then ⟨ws, ls, false⟩
      else pass2go importOk initRaises rest (dictInsertW nm src ws) ls

/-- What Pipeline.setup leaves behind: self.queues, self.workers, the
errors it logged, and its boolean return value. -/
structure SetupOut where
  queues : List QName
  workers : List (String × Bool)
  logs : List SetupLog
  ok : Bool
deriving DecidableEq

/-- Pipeline.setup (pipeline.py lines 139..294): pass 1 allocates queues,
pass 2 resolves and constructs workers. -/
def setupModel (importOk initRaises : String → Bool) (cfgs : List WDesc) :
    SetupOut :=
  let p := pass2go importOk initRaises cfgs.enum [] []
  ⟨pass1 cfgs, p.workers, p.logs, p.ok⟩

/-- Outcome of one iteration of the monitoring loop in Pipeline.run. -/
inductive StepR : Type
  | failure : StepR
  | success : StepR
  | running : StepR
deriving DecidableEq

/-- One iteration of the monitoring loop (pipeline.py lines 386..410)
against a liveness snapshot (the names of the processes alive at this
poll).  The dead-process check runs first, over every process including
sources, and returns failure at any dead handle; only when none is dead
are the source workers checked, yielding success when every source
process has exited. -/
def superviseStep (procs : List (String × Bool)) (alive : List String) : StepR :=
  if procs.any (fun p => !(alive.contains p.1)) then StepR.failure
  else if (procs.filter (fun p => p.2)).all (fun p => !(alive.contains p.1)) then
    StepR.success
  else StepR.running

/-- The monitoring loop of Pipeline.run over successive liveness snapshots
(one per 1 s poll); none means the loop is still running when the
observations end.  Both exits invoke self.stop() before returning. -/
def supervise (procs : List (String × Bool)) : List (List String) → Option Bool
  | [] => none
  | s :: rest =>
    match superviseStep procs s with
    | StepR.failure => some false
    | StepR.success => some true
    | StepR.running => supervise procs rest

/-- Pipeline.run (pipeline.py lines 365..420): setup, then start, then the
monitoring loop.  start() is modelled as always succeeding (process
spawning has no failure source here), with one process per registered
worker; each process carries the flag marking whether its worker is a
source (worker.input_queue is None exactly for source descriptors). -/
def runModel (importOk initRaises : String → Bool) (cfgs : List WDesc)
    (snaps : List (List String)) : Option Bool :=
  let s := setupModel importOk initRaises cfgs
  if s.ok then supervise s.workers snaps else some false

/-- The grace-period polling loop of Pipeline.stop (pipeline.py lines
342..351), one liveness snapshot per 1 s iteration: counts the iterations
executed before every process was seen dead.  The loop body only logs and
sleeps, so the count is its only observable effect. -/
def pollRun (procs : List String) : List (List String) → Nat
  | [] => 0
  | s :: rest =>
    if procs.any (fun p => s.contains p) then 1 + pollRun procs rest
    else 1

/-- The polling loop runs for at most the 30 s timeout. -/
def stopPollIters (procs : List String) (snaps : List (List String)) : Nat :=
  pollRun procs (snaps.take 30)

/-- What Pipeline.stop reports: its boolean return value and the processes
it force-terminated. -/
structure StopOut where
  result : Bool
  forced : List String
deriving DecidableEq

/-- Pipeline.stop (pipeline.py lines 319..363) after the STOP injection
and the grace-period poll: every process still alive at the final check is
force-terminated, and the method returns True unconditionally — the False
path is reachable only through an exception escaping the stop sequence,
of which this control flow has no source. -/
def stopModel (procs : List String) (finalAlive : List String) : StopOut :=
  { result := true, forced := procs.filter (fun p => finalAlive.contains p) }

/-- The queue set the C7 claim asserts, written from the claim words:
exactly one input queue per non-source descriptor and nothing else. -/
def claimQueuesOnlyInputs (cfgs : List WDesc) : List QName :=
  cfgs.enum.filterMap (fun ic =>
    if isSource ic.2 then none else some (QName.qin (wname ic.1 ic.2)))

/-- The queue names one enumerated descriptor contributes in setup pass 1:
its input queue when it is not a source, then its output queue. -/
def qnamesOf (ic : Nat × WDesc) : List QName :=
  (if isSource ic.2 then [] else [QName.qin (wname ic.1 ic.2)])
    ++ [QName.qout (wname ic.1 ic.2)]

/-- The observable view setup takes of a descriptor at position i, all
keys read through the same defaults the code uses: name, type, source,
next (absent read as []), queue_size (absent read as 100). -/
def descView (i : Nat) (d : WDesc) :
    String × Option String × Bool × List String × Nat :=
  (wname i d, d.type, isSource d, d.next.getD [], d.queue_size.getD 100)

/-- Legacy task A of the C6 example: prev_task key absent. -/
def legacyTaskA : PipeTask :=
  { name := "A", worker_type := some "X", prev_task := none }

/-- Legacy task A with the prev_task key present but empty. -/
def legacyTaskA2 : PipeTask :=
  { name := "A", worker_type := some "X", prev_task := some "" }

/-- Legacy task B of the C6 example. -/
def legacyTaskB : PipeTask :=
  { name := "B", worker_type := some "Y", prev_task := some "A" }

/-- Canonical descriptor for worker A in the C6 example. -/
def canonA : WDesc :=
  { name := some "A", type := some "X", source := some true,
    next := some ["B"], queue_size := none }

/-- Canonical descriptor for worker B in the C6 example. -/
def canonB : WDesc :=
  { name := some "B", type := some "Y", source := some false,
    next := some [], queue_size := none }

/-- What the adapter actually produces for task A when prev_task is
present and empty. -/
def adaptedA : WDesc :=
  { name := some "A", type := some "X", source := some true,
    next := some ["B"], queue_size := none }

/-- What the adapter actually produces for task B: no next key is ever
written for a worker without successors. -/
def adaptedB : WDesc :=
  { name := some "B", type := some "Y", source := some false,
    next := none, queue_size := none }

/-- A descriptor whose type is neither in the registry nor dotted. -/
def cfgBogus : WDesc :=
  { name := some "bad", type := some "Bogus", source := some false,
    next := some [], queue_size := none }

/-- A single source descriptor with a registry type. -/
def cfgSourceA : WDesc :=
  { name := some "A", type := some "ReadFramesFromVidFile",
    source := some true, next := some [], queue_size := none }

/-- A non-source descriptor with a registry type, fed by A. -/
def cfgSinkB : WDesc :=
  { name := some "B", type := some "Yolo3Detect", source := some false,
    next := some [], queue_size := none }

/-! Helper lemmas. -/

theorem runItems_putStops {α : Type} (l : List Nat) :
    runItems ((l.map Ev.putStop : List (Ev α))) = [] := by
  induction l with
  | nil => rfl
  | cons h t ih => simpa [runItems] using ih

theorem runItems_ranEvents {α : Type} (rr : α → Bool) (items : List α)
    (t : List (Ev α)) :
    runItems (items.map (fun a => if rr a then Ev.ranErr a else Ev.ranOk a) ++ t)
      = items ++ runItems t := by
  induction items with
  | nil => rfl
  | cons a items ih => cases h : rr a <;> simp [runItems, h, ih]

theorem countShutdown_append {α : Type} (l1 l2 : List (REv α)) :
    countShutdown (l1 ++ l2) = countShutdown l1 + countShutdown l2 := by
  induction l1 with
  | nil => simp [countShutdown]
  | cons e t ih =>
    cases e with
    | startupOk => simpa [countShutdown] using ih
    | startupRaised => simpa [countShutdown] using ih
    | loopEv e => simpa [countShutdown] using ih
    | shutdownCall => simp [countShutdown, ih]; omega

theorem countShutdown_map_loopEv {α : Type} (l : List (Ev α)) :
    countShutdown (l.map REv.loopEv) = 0 := by
  induction l with
  | nil => rfl
  | cons e t ih => simpa [countShutdown] using ih

theorem nsLoopTrace_items_stop {α : Type} (rr : α → Bool) (nOut : Nat)
    (items : List α) (rest : List (Msg α)) :
    nsLoopTrace rr nOut (items.map Msg.item ++ Msg.stop :: rest)
      = (items.map (fun a => if rr a then Ev.ranErr a else Ev.ranOk a)
          ++ (List.range nOut).map Ev.putStop, true) := by
  induction items with
  | nil => rfl
  | cons a items ih => simp [nsLoopTrace, ih]

theorem pass2act_of_unknown {io : String → Bool} {i : Nat} {c : WDesc}
    {ty : String} (hty : c.type = some ty) (hne : ty ≠ "")
    (hreg : ty ∉ worker_registry) (hdot : '.' ∉ ty.data) :
    pass2act io i c = P2Act.skip (SetupLog.unknownType ty) := by
  simp [pass2act, hty, hne, hreg, hdot]

theorem pass2act_of_resolves {io : String → Bool} (i : Nat) {c : WDesc}
    (h : descResolves io c = true) :
    pass2act io i c = P2Act.construct (wname i c) (isSource c) := by
  cases hty : c.type with
  | none => simp [descResolves, hty] at h
  | some ty =>
    by_cases hemp : ty = ""
    · exfalso
      subst hemp
      simp [descResolves, hty, resolveOk,
        (by decide : ("" : String) ∉ worker_registry),
        (by decide : ('.' : Char) ∉ ("" : String).data)] at h
    · by_cases h1 : ty ∈ worker_registry
      · have h2 : io ty = true := by
          simpa [descResolves, hty, resolveOk, h1] using h
        simp [pass2act, hty, hemp, h1, h2]
      · by_cases h3 : '.' ∈ ty.data
        · have h2 : io ty = true := by
            simpa [descResolves, hty, resolveOk, h1, h3] using h
          simp [pass2act, hty, hemp, h1, h3, h2]
        · exfalso
          simp [descResolves, hty, resolveOk, h1, h3] at h

theorem pass2act_construct_eq {io : String → Bool} {i : Nat} {c : WDesc}
    {nm : String} {src : Bool}
    (h : pass2act io i c = P2Act.construct nm src) :
    nm = wname i c ∧ src = isSource c ∧ descResolves io c = true := by
  cases hty : c.type with
  | none => simp [pass2act, hty] at h
  | some ty =>
    by_cases hemp : ty = ""
    · simp [pass2act, hty, hemp] at h
    · by_cases h1 : ty ∈ worker_registry
      · by_cases h2 : io ty
        · have h' : P2Act.construct (wname i c) (isSource c) = P2Act.construct nm src := by
            rw [← h]; simp [pass2act, hty, hemp, h1, h2]
          injection h' with e1 e2
          exact ⟨e1.symm, e2.symm, by simp [descResolves, hty, resolveOk, h1, h2]⟩
        · simp [pass2act, hty, hemp, h1, h2] at h
      · by_cases h3 : '.' ∈ ty.data
        · by_cases h2 : io ty
          · have h' : P2Act.construct (wname i c) (isSource c) = P2Act.construct nm src := by
              rw [← h]; simp [pass2act, hty, hemp, h1, h3, h2]
            injection h' with e1 e2
            exact ⟨e1.symm, e2.symm, by simp [descResolves, hty, resolveOk, h1, h3, h2]⟩
          · simp [pass2act, hty, hemp, h1, h3, h2] at h
        · simp [pass2act, hty, hemp, h1, h3] at h

theorem pass2go_ok {io ir : String → Bool} (hir : ∀ s, ir s = false) :
    ∀ (l : List (Nat × WDesc)) (ws : List (String × Bool)) (ls : List SetupLog),
      (pass2go io ir l ws ls).ok = true := by
  intro l
  induction l with
  | nil => intro ws ls; rfl
  | cons hd tl ih =>
    intro ws ls
    obtain ⟨i, c⟩ := hd
    cases hact : pass2act io i c with
    | skip lg => simp only [pass2go, hact]; exact ih _ _
    | construct nm src => simp only [pass2go, hact, hir nm]; exact ih _ _

theorem pass2go_logs_mono {io ir : String → Bool} {x : SetupLog} :
    ∀ (l : List (Nat × WDesc)) (ws : List (String × Bool)) (ls : List SetupLog),
      x ∈ ls → x ∈ (pass2go io ir l ws ls).logs := by
  intro l
  induction l with
  | nil => intro ws ls hx; exact hx
  | cons hd tl ih =>
    intro ws ls hx
    obtain ⟨i, c⟩ := hd
    cases hact : pass2act io i c with
    | skip lg =>
      simp only [pass2go, hact]
      exact ih _ _ (List.mem_append_left _ hx)
    | construct nm src =>
      simp only [pass2go, hact]
      by_cases hr : ir nm
      · simp only [hr, if_true]; exact hx
      · simp only [hr, if_false, Bool.false_eq_true]; exact ih _ _ hx

theorem pass2go_unknown_logged {io ir : String → Bool} (hir : ∀ s, ir s = false)
    {i : Nat} {c : WDesc} {ty : String}
    (hty : c.type = some ty) (hne : ty ≠ "") (hreg : ty ∉ worker_registry)
    (hdot : '.' ∉ ty.data) :
    ∀ (l : List (Nat × WDesc)) (ws : List (String × Bool)) (ls : List SetupLog),
      (i, c) ∈ l → SetupLog.unknownType ty ∈ (pass2go io ir l ws ls).logs := by
  intro l
  induction l with
  | nil => intro ws ls hmem; cases hmem
  | cons hd tl ih =>
    intro ws ls hmem
    rcases List.mem_cons.mp hmem with heq | hmem2
    · rw [← heq]
      have hact := @pass2act_of_unknown io i c ty hty hne hreg hdot
      simp only [pass2go, hact]
      exact pass2go_logs_mono _ _ _
        (List.mem_append_right _ (List.mem_singleton.mpr rfl))
    · obtain ⟨j, d⟩ := hd
      cases hact : pass2act io j d with
      | skip lg =>
        simp only [pass2go, hact]
        exact ih _ _ hmem2
      | construct nm src =>
        simp only [pass2go, hact, hir nm]
        exact ih _ _ hmem2

theorem dictInsertW_fresh {nm : String} {v : Bool} {ws : List (String × Bool)}
    (h : nm ∉ ws.map Prod.fst) : dictInsertW nm v ws = ws ++ [(nm, v)] := by
  unfold dictInsertW
  rw [if_neg h]

theorem dictInsertW_keys_subset {nm k : String} {v : Bool}
    {ws : List (String × Bool)}
    (h : k ∈ (dictInsertW nm v ws).map Prod.fst) :
    k ∈ ws.map Prod.fst ∨ k = nm := by
  unfold dictInsertW at h
  by_cases hm : nm ∈ ws.map Prod.fst
  · rw [if_pos hm, List.map_map] at h
    rcases List.mem_map.mp h with ⟨p, hp, hfp⟩
    by_cases hpe : p.1 = nm
    · right
      rw [← hfp]
      simp [Function.comp, hpe]
    · left
      rw [← hfp]
      simp only [Function.comp, hpe, if_false]
      simpa using List.mem_map_of_mem Prod.fst hp
  · rw [if_neg hm, List.map_append] at h
    rcases List.mem_append.mp h with h1 | h2
    · left; exact h1
    · right; simpa using h2

theorem pass2go_keys {io ir : String → Bool} :
    ∀ (l : List (Nat × WDesc)) (ws : List (String × Bool)) (ls : List SetupLog)
      (k : String), k ∈ (pass2go io ir l ws ls).workers.map Prod.fst →
      k ∈ ws.map Prod.fst ∨
        ∃ i c, (i, c) ∈ l ∧ k = wname i c ∧ descResolves io c = true := by
  intro l
  induction l with
  | nil => intro ws ls k hk; left; exact hk
  | cons hd tl ih =>
    intro ws ls k hk
    obtain ⟨j, d⟩ := hd
    cases hact : pass2act io j d with
    | skip lg =>
      simp only [pass2go, hact] at hk
      rcases ih _ _ _ hk with h1 | ⟨i, c, hm, he, hres⟩
      · left; exact h1
      · right; exact ⟨i, c, List.mem_cons_of_mem _ hm, he, hres⟩
    | construct nm src =>
      simp only [pass2go, hact] at hk
      by_cases hr : ir nm
      · rw [if_pos hr] at hk
        left; exact hk
      · rw [if_neg hr] at hk
        rcases ih _ _ _ hk with h1 | ⟨i, c, hm, he, hres⟩
        · rcases dictInsertW_keys_subset h1 with h2 | h2
          · left; exact h2
          · right
            obtain ⟨hnm, _, hres⟩ := pass2act_construct_eq hact
            exact ⟨j, d, List.mem_cons_self _ _, by rw [h2, hnm], hres⟩
        · right; exact ⟨i, c, List.mem_cons_of_mem _ hm, he, hres⟩

theorem pass2go_length {io ir : String → Bool} (hir : ∀ s, ir s = false) :
    ∀ (l : List (Nat × WDesc)) (ws : List (String × Bool)) (ls : List SetupLog),
      (∀ jd ∈ l, descResolves io jd.2 = true) →
      (l.map (fun jd => wname jd.1 jd.2)).Nodup →
      (∀ jd ∈ l, wname jd.1 jd.2 ∉ ws.map Prod.fst) →
      (pass2go io ir l ws ls).workers.length = ws.length + l.length := by
  intro l
  induction l with
  | nil => intro ws ls _ _ _; simp [pass2go]
  | cons hd tl ih =>
    intro ws ls hres hnd hfr
    obtain ⟨j, d⟩ := hd
    have hact := @pass2act_of_resolves io j d
      (hres (j, d) (List.mem_cons_self _ _))
    simp only [pass2go, hact, hir (wname j d), if_false, Bool.false_eq_true]
    rw [dictInsertW_fresh (hfr (j, d) (List.mem_cons_self _ _))]
    rw [List.map_cons, List.nodup_cons] at hnd
    rw [ih (ws ++ [(wname j d, isSource d)]) ls
      (fun jd hm => hres jd (List.mem_cons_of_mem _ hm)) hnd.2 ?_]
    · simp; omega
    · intro jd hm
      rw [List.map_append, List.mem_append]
      push_neg
      constructor
      · exact hfr jd (List.mem_cons_of_mem _ hm)
      · intro hcon
        simp only [List.map_cons, List.map_nil, List.mem_singleton] at hcon
        exact hnd.1 (hcon ▸ List.mem_map_of_mem (fun p => wname p.1 p.2) hm)

theorem dictInsert_fresh {k : QName} {m : List QName} (h : k ∉ m) :
    dictInsert k m = m ++ [k] := by
  unfold dictInsert
  rw [if_neg h]

theorem pass1go_eq :
    ∀ (l : List (Nat × WDesc)) (acc : List QName),
      (l.map (fun ic => wname ic.1 ic.2)).Nodup →
      (∀ ic ∈ l, QName.qin (wname ic.1 ic.2) ∉ acc ∧
        QName.qout (wname ic.1 ic.2) ∉ acc) →
      pass1go l acc = acc ++ l.flatMap qnamesOf := by
  intro l
  induction l with
  | nil => intro acc _ _; simp [pass1go]
  | cons hd tl ih =>
    intro acc hnd hfr
    obtain ⟨i, c⟩ := hd
    obtain ⟨hqin, hqout⟩ := hfr (i, c) (List.mem_cons_self _ _)
    rw [List.map_cons, List.nodup_cons] at hnd
    have hne : ∀ ic ∈ tl, wname ic.1 ic.2 ≠ wname i c := by
      intro ic hm hcon
      exact hnd.1 (hcon ▸ List.mem_map_of_mem (fun p => wname p.1 p.2) hm)
    cases hsrc : isSource c with
    | true =>
      simp only [pass1go, hsrc, if_true]
      rw [dictInsert_fresh hqout]
      rw [ih (acc ++ [QName.qout (wname i c)]) hnd.2 ?_]
      · simp [qnamesOf, hsrc]
      · intro ic hm
        constructor
        · rw [List.mem_append]
          push_neg
          exact ⟨(hfr ic (List.mem_cons_of_mem _ hm)).1, by simp⟩
        · rw [List.mem_append]
          push_neg
          refine ⟨(hfr ic (List.mem_cons_of_mem _ hm)).2, ?_⟩
          simp only [List.mem_singleton, QName.qout.injEq]
          intro hcon
          exact hne ic hm (by simpa using hcon)
    | false =>
      simp only [pass1go, hsrc, if_false, Bool.false_eq_true]
      rw [dictInsert_fresh hqin]
      rw [@dictInsert_fresh (QName.qout (wname i c))
        (acc ++ [QName.qin (wname i c)]) ?_]
      · rw [ih (acc ++ [QName.qin (wname i c)] ++ [QName.qout (wname i c)])
          hnd.2 ?_]
        · simp [qnamesOf, hsrc]
        · intro ic hm
          constructor
          · rw [List.mem_append, List.mem_append]
            push_neg
            refine ⟨⟨(hfr ic (List.mem_cons_of_mem _ hm)).1, ?_⟩, by simp⟩
            simp only [List.mem_singleton, QName.qin.injEq]
            intro hcon
            exact hne ic hm (by simpa using hcon)
          · rw [List.mem_append, List.mem_append]
            push_neg
            refine ⟨⟨(hfr ic (List.mem_cons_of_mem _ hm)).2, by simp⟩, ?_⟩
            simp only [List.mem_singleton, QName.qout.injEq]
            intro hcon
            exact hne ic hm (by simpa using hcon)
      · rw [List.mem_append]
        push_neg
        exact ⟨hqout, by simp⟩

theorem pollRun_le_length (procs : List String) :
    ∀ snaps : List (List String), pollRun procs snaps ≤ snaps.length := by
  intro snaps
  induction snaps with
  | nil => simp [pollRun]
  | cons s rest ih =>
    simp only [pollRun, List.length_cons]
    by_cases h : procs.any (fun p => s.contains p)
    · rw [if_pos h]; omega
    · rw [if_neg h]; omega

/-! Claim theorems. -/

/-- Claim C1 (code_bug evaluation): the supervision loop of Pipeline.run.
First conjunct: branch (a) of the claim does hold — a dead non-source
worker C, with source A still alive, is detected at the first poll and
run() stops the pipeline and returns failure.  Second conjunct: the
divergence — for a pipeline whose only worker is the source A, a poll at
which A has exited on its own (the claimed success condition) makes run()
return failure, because the dead-handle check at pipeline.py line 388
scans every process, sources included, before the source-completion check
at line 396 is ever reached. -/
theorem c1_supervision_evaluation :
    supervise [("A", true), ("C", false)] [["A"]] = some false
    ∧ supervise [("A", true)] [[]] = some false := by decide

/-- Claim C2 (counterexample): with a run() that never raises, the source
branch of the runtime loop calls run(None) again at iteration 1 right
after iteration 0 returned normally — the claimed exit on a normal return
does not exist (pipeline_worker.py lines 115..123 have no break). -/
theorem c2_counterexample :
    sourceLoopTrace (fun _ => false) 2 = [SEv.ran 0, SEv.ran 1] := by decide

/-- Claim C2 (amended): the source branch of PipelineWorker._run never
leaves the running state on a normal return of run(None); whatever the
outcome of any iteration, the loop unconditionally performs another
iteration (an exception is logged and followed by a backoff, a normal
return is followed directly by the next call).  The loop ends only by
external process termination. -/
theorem c2_amended_source_loop_repeats (rr : Nat → Bool) (fuel : Nat) :
    sourceLoopTrace rr (fuel + 1)
      = sourceLoopTrace rr fuel ++ [sourceIter rr fuel] := by
  simp [sourceLoopTrace, List.range_succ]

/-- Claim C3: for a non-source worker and an input queue holding items
followed by the STOP sentinel, the runtime loop passes exactly the items
preceding the token to run(), in enqueue order (whether or not run raises
on any of them), then forwards exactly one STOP to each of the nOut
output queues and terminates without passing the token to run(). -/
theorem c3_fifo_stop_forwarding {α : Type} (rr : α → Bool) (nOut : Nat)
    (items : List α) (rest : List (Msg α)) :
    nsLoopTrace rr nOut (items.map Msg.item ++ Msg.stop :: rest)
      = (items.map (fun a => if rr a then Ev.ranErr a else Ev.ranOk a)
          ++ (List.range nOut).map Ev.putStop, true)
    ∧ runItems (nsLoopTrace rr nOut (items.map Msg.item ++ Msg.stop :: rest)).1
        = items := by
  refine ⟨nsLoopTrace_items_stop rr nOut items rest, ?_⟩
  rw [nsLoopTrace_items_stop]
  simp [runItems_ranEvents, runItems_putStops]

/-- Claim C4 (counterexample): a descriptor whose type Bogus is neither in
the registry nor dotted does not make setup() return false as claimed —
setup returns true, registers no worker, logs the unknown type, and the
queues allocated in pass 1 for the skipped worker remain. -/
theorem c4_counterexample :
    (setupModel (fun _ => true) (fun _ => false) [cfgBogus]).ok = true
    ∧ (setupModel (fun _ => true) (fun _ => false) [cfgBogus]).workers = []
    ∧ (setupModel (fun _ => true) (fun _ => false) [cfgBogus]).logs
        = [SetupLog.unknownType "Bogus"]
    ∧ (setupModel (fun _ => true) (fun _ => false) [cfgBogus]).queues
        = [QName.qin "bad", QName.qout "bad"] := by decide

/-- Claim C4 (amended): a worker descriptor whose type is a non-empty
string absent from the registry and not a dotted fully-qualified
reference is skipped rather than fatal: setup() logs an error naming the
unknown type, registers no worker instance under that descriptor's name,
continues with the remaining descriptors, and — provided no other
descriptor's constructor raises — returns true, not false.  (An absent or
present-but-empty type string is likewise skipped, but through the
falsy-type path of pipeline.py line 191, whose log names the worker
instead of the type.) -/
theorem c4_amended_unknown_type_skipped (io ir : String → Bool)
    (cfgs : List WDesc) (i : Nat) (c : WDesc) (ty : String)
    (hnodup : (cfgs.enum.map (fun ic => wname ic.1 ic.2)).Nodup)
    (hir : ir = fun _ => false)
    (hmem : (i, c) ∈ cfgs.enum)
    (hty : c.type = some ty)
    (hne : ty ≠ "")
    (hreg : ty ∉ worker_registry)
    (hdot : '.' ∉ ty.data) :
    (setupModel io ir cfgs).ok = true
    ∧ SetupLog.unknownType ty ∈ (setupModel io ir cfgs).logs
    ∧ wname i c ∉ (setupModel io ir cfgs).workers.map Prod.fst := by
  have hir' : ∀ s, ir s = false := fun s => by rw [hir]
  refine ⟨?_, ?_, ?_⟩
  · exact pass2go_ok hir' cfgs.enum [] []
  · exact pass2go_unknown_logged hir' hty hne hreg hdot cfgs.enum [] [] hmem
  · show wname i c ∉ (pass2go io ir cfgs.enum [] []).workers.map Prod.fst
    intro hk
    rcases pass2go_keys cfgs.enum [] [] _ hk with h1 | ⟨j, d, hm, he, hres⟩
    · simp at h1
    · have hj : (j, d) = (i, c) :=
        List.inj_on_of_nodup_map hnodup hm hmem he.symm
      have hd : d = c := congrArg Prod.snd hj
      rw [hd] at hres
      have hfalse : descResolves io c = false := by
        simp [descResolves, hty, resolveOk, hreg, hdot]
      rw [hfalse] at hres
      cases hres

/-- Claim C4 (witness): the amended theorem applied to the Bogus
descriptor. -/
theorem c4_amended_witness :
    ((([cfgBogus] : List WDesc).enum.map (fun ic => wname ic.1 ic.2)).Nodup)
    ∧ ((fun (_ : String) => false) = fun (_ : String) => false)
    ∧ ((0, cfgBogus) ∈ ([cfgBogus] : List WDesc).enum)
    ∧ (cfgBogus.type = some "Bogus")
    ∧ ("Bogus" ≠ "")
    ∧ ("Bogus" ∉ worker_registry)
    ∧ ('.' ∉ "Bogus".data)
    ∧ ((setupModel (fun _ => true) (fun _ => false) [cfgBogus]).ok = true
      ∧ SetupLog.unknownType "Bogus"
          ∈ (setupModel (fun _ => true) (fun _ => false) [cfgBogus]).logs
      ∧ wname 0 cfgBogus
          ∉ (setupModel (fun _ => true) (fun _ => false)
              [cfgBogus]).workers.map Prod.fst) :=
  ⟨by decide, rfl, by decide, rfl, by decide, by decide, by decide,
    c4_amended_unknown_type_skipped (fun _ => true) (fun _ => false) [cfgBogus]
      0 cfgBogus "Bogus" (by decide) rfl (by decide) rfl (by decide) (by decide)
      (by decide)⟩

/-- Claim C5 (counterexample): a worker still alive at the final check is
force-terminated, yet stop() reports true — the claimed "true only if no
forced termination was needed" is false (pipeline.py returns True at line
360 regardless of the terminations at lines 354..357). -/
theorem c5_counterexample :
    (stopModel ["A"] ["A"]).result = true
    ∧ (stopModel ["A"] ["A"]).forced = ["A"]
    ∧ (stopModel ["A"] ["A"]).forced ≠ [] := by decide

/-- Claim C5 (amended): stop() polls worker handles for at most the fixed
30-second grace period, force-terminates exactly the handles still alive
at the final check, and returns true unconditionally, whether or not any
forced termination occurred; false is reachable only through an exception
escaping the stop sequence. -/
theorem c5_amended_stop_returns_true (procs : List String)
    (snaps : List (List String)) (finalAlive : List String) :
    stopPollIters procs snaps ≤ 30
    ∧ (stopModel procs finalAlive).result = true
    ∧ (stopModel procs finalAlive).forced
        = procs.filter (fun p => finalAlive.contains p) := by
  refine ⟨?_, rfl, rfl⟩
  unfold stopPollIters
  calc pollRun procs (snaps.take 30) ≤ (snaps.take 30).length :=
        pollRun_le_length procs _
    _ ≤ 30 := by simp [List.length_take]

/-- Claim C6 (counterexample): the exact legacy config of the claim — task
A with NO prev_task key, task B with prev_task A — does not normalize to
the canonical graph: the wiring pass reads tasks[0][prev_task] for A
(whose source key was never written), the KeyError is caught, and
_load_config returns the empty config instead. -/
theorem c6_counterexample :
    adaptTasks [legacyTaskA, legacyTaskB] = none
    ∧ loadWorkers (LoadOutcome.legacy [legacyTaskA, legacyTaskB]) = []
    ∧ loadWorkers (LoadOutcome.canonical [canonA, canonB]) = [canonA, canonB]
    ∧ loadWorkers (LoadOutcome.legacy [legacyTaskA, legacyTaskB])
        ≠ loadWorkers (LoadOutcome.canonical [canonA, canonB]) := by decide

/-- Claim C6 (amended): when every task carries an explicit prev_task key
(empty marks the worker a source), the adapter behaves as claimed: fields
are copied, worker_type is renamed to type, an empty prev_task yields
source=true, a non-empty one yields source=false and appends the worker
name to the next list of the descriptor named by it.  The normalized
legacy graph agrees with the canonical one in every field setup reads
(name, type, source, next, queue_size with their defaults); the only raw
difference is that a worker without successors carries no next key at all
where the canonical form writes an explicit empty list. -/
theorem c6_amended_legacy_normalization :
    adaptTasks [legacyTaskA2, legacyTaskB] = some [adaptedA, adaptedB]
    ∧ loadWorkers (LoadOutcome.legacy [legacyTaskA2, legacyTaskB])
        = [adaptedA, adaptedB]
    ∧ descView 0 adaptedA = descView 0 canonA
    ∧ descView 1 adaptedB = descView 1 canonB
    ∧ adaptedB.next = none ∧ canonB.next = some [] := by decide

/-- Claim C7 (counterexample): for a single source worker with a registry
type, setup() allocates the (never used) output queue q_out_A, so the
allocated queues are not exactly one input queue per non-source
descriptor (which would be none here). -/
theorem c7_counterexample :
    (setupModel (fun _ => true) (fun _ => false) [cfgSourceA]).queues
        = [QName.qout "A"]
    ∧ claimQueuesOnlyInputs [cfgSourceA] = []
    ∧ (setupModel (fun _ => true) (fun _ => false) [cfgSourceA]).queues
        ≠ claimQueuesOnlyInputs [cfgSourceA] := by decide

/-- Claim C7 (amended): for a configuration with N uniquely named
descriptors whose types all resolve and whose constructors do not raise,
setup() returns true and creates exactly N worker instances; the queues it
allocates are one input queue per non-source descriptor PLUS one output
queue per descriptor (allocated but never connected), in enumeration
order; source workers receive no input queue.  Unresolvable names in a
next list only log a warning and change none of these outputs. -/
theorem c7_amended_setup_counts (io ir : String → Bool) (cfgs : List WDesc)
    (hnodup : (cfgs.enum.map (fun ic => wname ic.1 ic.2)).Nodup)
    (hir : ir = fun _ => false)
    (hres : cfgs.all (fun c => descResolves io c) = true) :
    (setupModel io ir cfgs).ok = true
    ∧ (setupModel io ir cfgs).workers.length = cfgs.length
    ∧ (setupModel io ir cfgs).queues = cfgs.enum.flatMap qnamesOf := by
  have hir' : ∀ s, ir s = false := fun s => by rw [hir]
  have hresE : ∀ jd ∈ cfgs.enum, descResolves io jd.2 = true := by
    intro jd hm
    exact List.all_eq_true.mp hres _ (List.snd_mem_of_mem_enum hm)
  refine ⟨pass2go_ok hir' cfgs.enum [] [], ?_, ?_⟩
  · show (pass2go io ir cfgs.enum [] []).workers.length = cfgs.length
    rw [pass2go_length hir' cfgs.enum [] [] hresE hnodup (by intro jd _; simp)]
    simp [List.enum_length]
  · show pass1 cfgs = cfgs.enum.flatMap qnamesOf
    unfold pass1
    rw [pass1go_eq cfgs.enum [] hnodup (by intro ic _; simp)]
    simp

/-- Claim C7 (witness): the amended theorem applied to the two-worker
configuration source A feeding sink B. -/
theorem c7_amended_witness :
    ((([cfgSourceA, cfgSinkB] : List WDesc).enum.map
        (fun ic => wname ic.1 ic.2)).Nodup)
    ∧ ((fun (_ : String) => false) = fun (_ : String) => false)
    ∧ (([cfgSourceA, cfgSinkB] : List WDesc).all
        (fun c => descResolves (fun _ => true) c) = true)
    ∧ ((setupModel (fun _ => true) (fun _ => false)
          [cfgSourceA, cfgSinkB]).ok = true
      ∧ (setupModel (fun _ => true) (fun _ => false)
          [cfgSourceA, cfgSinkB]).workers.length = 2
      ∧ (setupModel (fun _ => true) (fun _ => false)
          [cfgSourceA, cfgSinkB]).queues
          = ([cfgSourceA, cfgSinkB] : List WDesc).enum.flatMap qnamesOf) := by
  refine ⟨by decide, rfl, by decide, ?_⟩
  have h := c7_amended_setup_counts (fun _ => true) (fun _ => false)
    [cfgSourceA, cfgSinkB] (by decide) rfl (by decide)
  simpa using h

/-- Claim C8: an exception raised by run() on one item of a non-source
worker is caught and logged inside the loop, the item is dropped, and the
loop continues with the next message: the trace records the failed run
call and then proceeds exactly as the loop on the remaining input, with
the same termination behaviour. -/
theorem c8_item_error_recovered {α : Type} (rr : α → Bool) (nOut : Nat)
    (a : α) (rest : List (Msg α)) (h : rr a = true) :
    (nsLoopTrace rr nOut (Msg.item a :: rest)).1
        = Ev.ranErr a :: (nsLoopTrace rr nOut rest).1
    ∧ (nsLoopTrace rr nOut (Msg.item a :: rest)).2
        = (nsLoopTrace rr nOut rest).2
    ∧ runItems (nsLoopTrace rr nOut (Msg.item a :: rest)).1
        = a :: runItems (nsLoopTrace rr nOut rest).1 := by
  simp [nsLoopTrace, h, runItems]

/-- Claim C8 (witness): the theorem applied to a one-item queue whose run
raises, followed by the STOP sentinel. -/
theorem c8_witness :
    ((fun (_ : Nat) => true) 1 = true)
    ∧ ((nsLoopTrace (fun (_ : Nat) => true) 1 (Msg.item 1 :: [Msg.stop])).1
        = Ev.ranErr 1
          :: (nsLoopTrace (fun (_ : Nat) => true) 1
            ([Msg.stop] : List (Msg Nat))).1
      ∧ (nsLoopTrace (fun (_ : Nat) => true) 1 (Msg.item 1 :: [Msg.stop])).2
        = (nsLoopTrace (fun (_ : Nat) => true) 1
            ([Msg.stop] : List (Msg Nat))).2
      ∧ runItems
          (nsLoopTrace (fun (_ : Nat) => true) 1 (Msg.item 1 :: [Msg.stop])).1
        = 1 :: runItems (nsLoopTrace (fun (_ : Nat) => true) 1
            ([Msg.stop] : List (Msg Nat))).1) :=
  ⟨rfl, c8_item_error_recovered (fun _ => true) 1 1 [Msg.stop] rfl⟩

/-- Claim C9: on every terminating execution of the runtime loop — the
STOP sentinel was dequeued, or startup() raised — the finally block
invokes shutdown() exactly once on the way out.  The source branch never
exits on its own (see the C2 theorems), so a source worker reaches
shutdown() only through the startup-failure path covered here. -/
theorem c9_shutdown_exactly_once {α : Type} (startupRaises : Bool)
    (rr : α → Bool) (nOut : Nat) (inQ : List (Msg α))
    (h : (runNSTrace startupRaises rr nOut inQ).2 = true) :
    countShutdown (runNSTrace startupRaises rr nOut inQ).1 = 1 := by
  cases hs : startupRaises with
  | true => simp [runNSTrace, hs, countShutdown]
  | false =>
    cases hr : (nsLoopTrace rr nOut inQ).2 with
    | false =>
      exfalso
      rw [hs] at h
      simp [runNSTrace, hr] at h
    | true =>
      simp [runNSTrace, hs, hr, countShutdown, countShutdown_append,
        countShutdown_map_loopEv]

/-- Claim C9 (witness): the theorem applied to a worker whose queue holds
just the STOP sentinel. -/
theorem c9_witness :
    ((runNSTrace false (fun (_ : Nat) => false) 1 [Msg.stop]).2 = true)
    ∧ countShutdown
        (runNSTrace false (fun (_ : Nat) => false) 1 [Msg.stop]).1 = 1 :=
  ⟨by decide,
    c9_shutdown_exactly_once false (fun _ => false) 1 [Msg.stop] (by decide)⟩

/-- Claim C10: a missing configuration file, an unsupported extension, or
a parse failure all yield the empty configuration rather than raising;
setup() on the empty configuration returns true with zero workers and
zero queues, and run() then returns true at its first supervision poll
without doing any work — a configuration-loading failure is never
surfaced as a failed result. -/
theorem c10_config_failure_reports_success (io ir : String → Bool)
    (s0 : List String) (snaps : List (List String)) :
    loadWorkers LoadOutcome.missingFile = []
    ∧ loadWorkers LoadOutcome.unsupportedExt = []
    ∧ loadWorkers LoadOutcome.parseError = []
    ∧ setupModel io ir [] = ⟨[], [], [], true⟩
    ∧ runModel io ir [] (s0 :: snaps) = some true := by
  exact ⟨rfl, rfl, rfl, rfl, rfl⟩
